import Mathlib

/-!
Shallow embedding of the Attendance Derivation & Monthly Reporting Engine of
`realtime.py` (a single-file timesheet / attendance application backed by
SQLite).  The three tables `employees`, `timesheet` and `attendance_log` are
modelled as Lean lists of structures; the core write paths `log_attendance`
and `add_timesheet_entry`, the UI-level validation wrappers in
`employee_view`, and the read-side aggregator `generate_monthly_report` are
translated function by function.  Calendar arithmetic (`calendar.monthrange`,
`datetime.date.weekday`) is reproduced from the proleptic Gregorian calendar
used by Python's `datetime` module.
-/

/-- A calendar date, as carried by Python `datetime.date` values
(year, month, day). -/
structure Date where
  year : Nat
  month : Nat
  day : Nat
deriving DecidableEq, Repr

/-- Gregorian leap-year test, as used by `calendar.monthrange`. -/
def isLeap (y : Nat) : Bool :=
  y % 4 == 0 && (y % 100 != 0 || y % 400 == 0)

/-- Number of days of month `m` of year `y`: the second component of Python's
`calendar.monthrange y m`. -/
def daysInMonth (y m : Nat) : Nat :=
  if m == 2 then (if isLeap y then 29 else 28)
  else if m == 4 || m == 6 || m == 9 || m == 11 then 30
  else 31

/-- Days in all years strictly before year `y` in the proleptic Gregorian
calendar (Python `datetime`'s `_days_before_year`). -/
def daysBeforeYear (y : Nat) : Nat :=
  365 * (y - 1) + (y - 1) / 4 + (y - 1) / 400 - (y - 1) / 100

/-- Days in year `y` strictly before month `m`. -/
def daysBeforeMonth (y m : Nat) : Nat :=
  ((List.range (m - 1)).map (fun i => daysInMonth y (i + 1))).sum

/-- Python `date.toordinal`: day count with 0001-01-01 as ordinal 1. -/
def Date.toordinal (d : Date) : Nat :=
  daysBeforeYear d.year + daysBeforeMonth d.year d.month + d.day

/-- Python `date.weekday`: Monday = 0 … Sunday = 6.  Ordinal 1
(0001-01-01) was a Monday. -/
def Date.weekday (d : Date) : Nat :=
  (d.toordinal + 6) % 7

/-- The `attendance_date` column is SQLite TEXT.  The core write paths always
store the ISO string of a Python `date` object (constructor `iso`); a row
loaded back by the report may in general carry any text.  A text that
SQLite's `strftime` maps to year/month `(y, m)` in the report's SQL filter
but that `pd.to_datetime` fails to parse is summarised by the constructor
`raw y m`; text that `strftime` rejects never reaches the report at all, so
it needs no constructor. -/
inductive DBDate where
  | iso (d : Date)
  | raw (y m : Nat)
deriving DecidableEq, Repr

/-- Year and month that SQLite's `strftime('%Y', ·)` / `strftime('%m', ·)`
extract from the stored date text, used by the report's SQL filter. -/
def DBDate.strftimeYM : DBDate → Nat × Nat
  | iso d => (d.year, d.month)
  | raw y m => (y, m)

/-- Result of `pd.to_datetime(text).date()` on the stored date text: `none`
models the raised exception on unparseable text. -/
def DBDate.toDatetime : DBDate → Option Date
  | iso d => some d
  | raw _ _ => none

/-- A row of the `employees` table (the password-hash column plays no role in
the claims and is omitted). -/
structure Employee where
  employee_id : String
  name : String
deriving DecidableEq, Repr

/-- A row of the `timesheet` table.  `hours_worked` is a SQLite REAL; the core
only ever compares it with 0 and stores it, so it is modelled as a rational.
The wall-clock `submission_time` column is environment input that no claim
mentions and is omitted. -/
structure TimesheetEntry where
  employee_id : String
  project_name : String
  task_description : String
  hours_worked : ℚ
deriving DecidableEq, Repr

/-- A timesheet row paired with its `submission_date` column. -/
structure TimesheetRow where
  entry : TimesheetEntry
  submission_date : DBDate
deriving DecidableEq, Repr

/-- A row of the `attendance_log` table. -/
structure AttendanceRecord where
  employee_id : String
  attendance_date : DBDate
  status : String
  reason : String
deriving DecidableEq, Repr

/-- The database state: the three tables created by `initialize_database`. -/
structure DB where
  employees : List Employee
  timesheet : List TimesheetRow
  attendance_log : List AttendanceRecord
deriving DecidableEq, Repr

/-- `initialize_database` creates the three tables empty (with
`UNIQUE(employee_id, attendance_date)` on `attendance_log`). -/
def initialDatabase : DB :=
  { employees := [], timesheet := [], attendance_log := [] }

/-- `log_attendance`: `INSERT OR REPLACE INTO attendance_log … VALUES (…)`.
SQLite's REPLACE deletes every row conflicting on the
`UNIQUE(employee_id, attendance_date)` constraint and inserts the new row. -/
def log_attendance (log : List AttendanceRecord) (employee_id : String)
    (attendance_date : DBDate) (status : String) (reason : String) :
    List AttendanceRecord :=
  (log.filter (fun r =>
    !(r.employee_id == employee_id && r.attendance_date == attendance_date)))
    ++ [⟨employee_id, attendance_date, status, reason⟩]

/-- `add_timesheet_entry`: append the timesheet row, then
`SELECT status FROM attendance_log WHERE employee_id = ? AND attendance_date = ?`;
if no row comes back, `log_attendance(employee_id, entry_date, "Present",
"Work Submitted")`.  (The function also rewrites the last-update marker file,
which is outside the database state.) -/
def add_timesheet_entry (db : DB) (employee_id project_name task_description :
    String) (hours_worked : ℚ) (entry_date : Date) : DB :=
  let row : TimesheetRow :=
    ⟨⟨employee_id, project_name, task_description, hours_worked⟩,
      DBDate.iso entry_date⟩
  let db1 := { db with timesheet := db.timesheet ++ [row] }
  let current_log := db1.attendance_log.find? (fun r =>
    r.employee_id == employee_id && r.attendance_date == DBDate.iso entry_date)
  let newLog :=
    log_attendance db1.attendance_log employee_id (DBDate.iso entry_date)
      "Present" "Work Submitted"
  match current_log with
  | none => { db1 with attendance_log := newLog }
  | some _ => db1

/-- The "Submit Task" branch of `employee_view`: the form accepts only when
`project_name and task_description and hours_worked > 0` (Python truthiness:
both strings non-empty), otherwise it shows "Please fill all fields." and
mutates nothing. -/
def employee_view_submit_task (db : DB) (employee_id project_name
    task_description : String) (hours_worked : ℚ) (entry_date : Date) :
    Except String DB :=
  if project_name ≠ "" ∧ task_description ≠ "" ∧ hours_worked > 0 then
    Except.ok (add_timesheet_entry db employee_id project_name
      task_description hours_worked entry_date)
  else Except.error "Please fill all fields."

/-- The "Mark Leave / Absence" branch of `employee_view`: `if reason:` guards
`log_attendance`; an empty reason shows "A reason is required." and mutates
nothing.  `status` comes from a selectbox over ["Leave", "Half-day"]. -/
def employee_view_mark_leave (db : DB) (employee_id : String)
    (leave_date : Date) (status reason : String) : Except String DB :=
  let newLog :=
    log_attendance db.attendance_log employee_id (DBDate.iso leave_date)
      status reason
  if reason ≠ "" then
    Except.ok { db with attendance_log := newLog }
  else Except.error "A reason is required."

/-- The SQL filter of `generate_monthly_report`:
`strftime('%Y', attendance_date) = str(year)` and
`strftime('%m', attendance_date) = f'{month:02d}'`, read over the stored
text (numeric comparison models the string comparison for four-digit
years). -/
def monthFilter (year month : Nat) (r : AttendanceRecord) : Bool :=
  r.attendance_date.strftimeYM == (year, month)

/-- Per-employee status count delivered by
`df.groupby('employee_id')['status'].value_counts()` joined left onto the
employee directory (an employee absent from `df` gets 0 via `fillna(0)`). -/
def statusCount (df : List AttendanceRecord) (employee_id status : String) :
    Nat :=
  (df.filter (fun r =>
    r.employee_id == employee_id && r.status == status)).length

/-- `working_days = sum(1 for i in range(1, num_days + 1)
if date(year, month, i).weekday() < 5)`. -/
def workingDays (year month : Nat) : Nat :=
  ((List.range (daysInMonth year month)).filter (fun i =>
    (Date.mk year month (i + 1)).weekday < 5)).length

/-- One row of the monthly summary: the directory columns, the three counted
statuses, and the computed `Absent` column. -/
structure EmployeeSummary where
  employee_id : String
  name : String
  present : Nat
  halfday : Nat
  leave : Nat
  absent : Int
deriving DecidableEq, Repr

/-- The summary row of one directory employee:
`Total Logged = Present + Half-day + Leave` (a missing status column counts
as 0), `Absent = working_days - Total Logged` then `.clip(lower=0)`. -/
def summaryRow (df : List AttendanceRecord) (year month : Nat)
    (e : Employee) : EmployeeSummary :=
  let p := statusCount df e.employee_id "Present"
  let h := statusCount df e.employee_id "Half-day"
  let l := statusCount df e.employee_id "Leave"
  { employee_id := e.employee_id, name := e.name,
    present := p, halfday := h, leave := l,
    absent := max ((workingDays year month : Int) - ((p + h + l : Nat) : Int))
      0 }

/-- The default written into every matrix column before the overlay:
`'Weekend' if dt.weekday() >= 5 else 'Absent'`. -/
def defaultCell (d : Date) : String :=
  if d.weekday ≥ 5 then "Weekend" else "Absent"

/-- One iteration of the overlay loop of `generate_monthly_report`:
`attendance_dt = pd.to_datetime(row['attendance_date']).date()` under
`try/except` (an unparseable date skips the row), then
`if row['employee_id'] in detailed_report.index:
detailed_report.loc[row['employee_id'], attendance_dt] = row['status']`.
The matrix is the function from (employee_id, date column) to cell text. -/
def applyRow (emps : List String) (cell : String → Date → String)
    (r : AttendanceRecord) : String → Date → String :=
  match r.attendance_date.toDatetime with
  | none => cell
  | some dt =>
    if emps.contains r.employee_id then
      fun e d => if e = r.employee_id ∧ d = dt then r.status else cell e d
    else cell

/-- The detailed matrix as a cell function: defaults per date column, then
the overlay loop over the filtered ledger rows in order. -/
def buildMatrixFun (emps : List String) (df : List AttendanceRecord) :
    String → Date → String :=
  df.foldl (applyRow emps) (fun _ d => defaultCell d)

/-- `generate_monthly_report year month`: empty directory short-circuits to
two empty frames; otherwise the summary holds one row per directory employee
and the detailed report holds, per directory employee, the cells of the
month's date columns `date(year, month, 1) … date(year, month, num_days)`. -/
def generate_monthly_report (db : DB) (year month : Nat) :
    List EmployeeSummary × List (Employee × List String) :=
  if db.employees = [] then ([], [])
  else
    let df := db.attendance_log.filter (monthFilter year month)
    let cell := buildMatrixFun (db.employees.map (fun e => e.employee_id)) df
    (db.employees.map (summaryRow df year month),
     db.employees.map (fun e =>
       (e, (List.range (daysInMonth year month)).map (fun i =>
         cell e.employee_id ⟨year, month, i + 1⟩))))

/-- The two externally triggered core operations, as dispatched by
`employee_view`. -/
inductive Op where
  | submit (employee_id project_name task_description : String)
      (hours_worked : ℚ) (entry_date : Date)
  | declare (employee_id : String) (leave_date : Date)
      (status reason : String)

/-- Run one operation through its `employee_view` wrapper; a validation
error leaves the database untouched. -/
def applyOp (db : DB) : Op → DB
  | .submit eid pn td hw d =>
    match employee_view_submit_task db eid pn td hw d with
    | .ok db1 => db1
    | .error _ => db
  | .declare eid d st rsn =>
    match employee_view_mark_leave db eid d st rsn with
    | .ok db1 => db1
    | .error _ => db

/-- Run a sequence of core operations. -/
def runOps (db : DB) (ops : List Op) : DB :=
  ops.foldl applyOp db

/-- At most one `attendance_log` row per (employee_id, attendance_date) key:
the `UNIQUE(employee_id, attendance_date)` table invariant. -/
def KeyUnique (log : List AttendanceRecord) : Prop :=
  log.Pairwise (fun a b =>
    ¬(a.employee_id = b.employee_id ∧ a.attendance_date = b.attendance_date))

/-- The rows of a log holding a given (employee, date) key. -/
def keyRows (log : List AttendanceRecord) (employee_id : String)
    (d : Date) : List AttendanceRecord :=
  log.filter (fun r =>
    r.employee_id == employee_id && r.attendance_date == DBDate.iso d)

/-- A sample database used to instantiate report-level theorems: one
directory employee, an April 2024 Present row, and one ledger row whose
stored date text cannot be parsed. -/
def sampleAprilDB : DB :=
  { employees := [⟨"E1", "Alice"⟩], timesheet := [],
    attendance_log :=
      [⟨"E1", DBDate.iso ⟨2024, 4, 1⟩, "Present", "Work Submitted"⟩,
       ⟨"E1", DBDate.raw 2024 4, "Present", "mangled date"⟩] }

/-! Helper lemmas about the core operations and the report pipeline. -/

theorem log_attendance_keyRows (l : List AttendanceRecord)
    (eid : String) (d : Date) (st rsn : String) :
    keyRows (log_attendance l eid (DBDate.iso d) st rsn) eid d =
      [⟨eid, DBDate.iso d, st, rsn⟩] := by
  simp only [keyRows, log_attendance, List.filter_append, List.filter_filter]
  simp

theorem log_attendance_mem_of_other (l : List AttendanceRecord)
    (eid : String) (dd : DBDate) (st rsn : String) (r : AttendanceRecord)
    (hr : r ∈ l)
    (hk : ¬(r.employee_id = eid ∧ r.attendance_date = dd)) :
    r ∈ log_attendance l eid dd st rsn := by
  apply List.mem_append_left
  simp only [List.mem_filter]
  refine ⟨hr, ?_⟩
  simp only [Bool.not_eq_true']
  rw [Bool.and_eq_false_iff]
  by_cases h1 : r.employee_id = eid
  · right
    simp only [beq_eq_false_iff_ne, ne_eq]
    exact fun h2 => hk ⟨h1, h2⟩
  · left
    simp only [beq_eq_false_iff_ne, ne_eq]
    exact h1

theorem log_attendance_KeyUnique (l : List AttendanceRecord)
    (eid : String) (dd : DBDate) (st rsn : String)
    (h : KeyUnique l) : KeyUnique (log_attendance l eid dd st rsn) := by
  unfold KeyUnique log_attendance
  rw [List.pairwise_append]
  refine ⟨(h.sublist (List.filter_sublist _)), List.pairwise_singleton _ _, ?_⟩
  intro a ha b hb
  simp only [List.mem_singleton] at hb
  subst hb
  simp only [List.mem_filter, Bool.not_eq_true', Bool.and_eq_false_iff,
    beq_eq_false_iff_ne, ne_eq] at ha
  rcases ha.2 with h1 | h2
  · exact fun hc => h1 hc.1
  · exact fun hc => h2 hc.2

theorem add_timesheet_entry_log_of_absent (db : DB)
    (eid pn td : String) (hw : ℚ) (d : Date)
    (h : ∀ r ∈ db.attendance_log,
      ¬(r.employee_id = eid ∧ r.attendance_date = DBDate.iso d)) :
    (add_timesheet_entry db eid pn td hw d).attendance_log =
      log_attendance db.attendance_log eid (DBDate.iso d)
        "Present" "Work Submitted" := by
  unfold add_timesheet_entry
  have hfind : db.attendance_log.find? (fun r =>
      r.employee_id == eid && r.attendance_date == DBDate.iso d) = none := by
    rw [List.find?_eq_none]
    intro r hr
    have := h r hr
    simp only [Bool.and_eq_true, beq_iff_eq]
    exact fun hc => this hc
  simp only [hfind]

theorem add_timesheet_entry_log_of_present (db : DB)
    (eid pn td : String) (hw : ℚ) (d : Date) (r : AttendanceRecord)
    (hr : r ∈ db.attendance_log) (h1 : r.employee_id = eid)
    (h2 : r.attendance_date = DBDate.iso d) :
    (add_timesheet_entry db eid pn td hw d).attendance_log =
      db.attendance_log := by
  unfold add_timesheet_entry
  have hfind : (db.attendance_log.find? (fun r =>
      r.employee_id == eid && r.attendance_date == DBDate.iso d)).isSome := by
    rw [List.find?_isSome]
    exact ⟨r, hr, by simp [h1, h2]⟩
  rcases Option.isSome_iff_exists.mp hfind with ⟨a, ha⟩
  simp only [ha]

/-- C7: a declaration whose reason is empty fails with the validation error
"A reason is required." and the operation leaves the database — in particular
the attendance ledger — completely unchanged. -/
theorem C7_empty_reason_rejected (db : DB) (employee_id : String)
    (leave_date : Date) (status : String) :
    employee_view_mark_leave db employee_id leave_date status "" =
      Except.error "A reason is required." ∧
    applyOp db (Op.declare employee_id leave_date status "") = db := by
  constructor
  · simp [employee_view_mark_leave]
  · simp [applyOp, employee_view_mark_leave]

/-- C8: with an empty Employee Directory, `generate_monthly_report` returns
the pair of empty structures for any year and month, and signals no error. -/
theorem C8_empty_directory (db : DB) (year month : Nat)
    (h : db.employees = []) :
    generate_monthly_report db year month = ([], []) := by
  simp [generate_monthly_report, h]

/-- C8 witness: the freshly initialized database has no employees, and the
report for April 2024 over it is the pair of empty structures. -/
theorem C8_empty_directory_witness :
    generate_monthly_report initialDatabase 2024 4 = ([], []) :=
  C8_empty_directory initialDatabase 2024 4 rfl

/-- C9: a task submission with an empty project name, an empty task
description, or non-positive hours is rejected with the validation error
"Please fill all fields."; the database — timesheet store and attendance
ledger alike — is left unchanged, so neither the append nor the derivation
rule runs. -/
theorem C9_submission_validation (db : DB)
    (employee_id project_name task_description : String)
    (hours_worked : ℚ) (entry_date : Date)
    (h : project_name = "" ∨ task_description = "" ∨ hours_worked ≤ 0) :
    employee_view_submit_task db employee_id project_name task_description
      hours_worked entry_date = Except.error "Please fill all fields." ∧
    applyOp db (Op.submit employee_id project_name task_description
      hours_worked entry_date) = db := by
  have hc : ¬(project_name ≠ "" ∧ task_description ≠ "" ∧ hours_worked > 0) := by
    rintro ⟨h1, h2, h3⟩
    rcases h with h | h | h
    · exact h1 h
    · exact h2 h
    · exact absurd h3 (not_lt.mpr h)
  constructor
  · simp only [employee_view_submit_task, if_neg hc]
  · simp only [applyOp, employee_view_submit_task, if_neg hc]

/-- C9 witness: a submission with an empty project name is rejected and the
empty database is unchanged. -/
theorem C9_submission_validation_witness :
    employee_view_submit_task initialDatabase "E1" "" "writing tests" 2
      ⟨2024, 4, 1⟩ = Except.error "Please fill all fields." ∧
    applyOp initialDatabase (Op.submit "E1" "" "writing tests" 2
      ⟨2024, 4, 1⟩) = initialDatabase :=
  C9_submission_validation initialDatabase "E1" "" "writing tests" 2
    ⟨2024, 4, 1⟩ (Or.inl rfl)

/-- C1: a task submission for (E, D) upserts {Present, "Work Submitted"} when
no attendance record exists for that key, and leaves the ledger completely
unchanged when one does; hence after two successive submissions for the same
key, exactly one record exists for it and it carries the status and reason
set by the first submission. -/
theorem C1_submission_first_write_wins (db : DB)
    (eid pn td : String) (hw : ℚ) (d : Date) :
    ((∀ r ∈ db.attendance_log,
        ¬(r.employee_id = eid ∧ r.attendance_date = DBDate.iso d)) →
      keyRows (add_timesheet_entry db eid pn td hw d).attendance_log eid d =
        [⟨eid, DBDate.iso d, "Present", "Work Submitted"⟩] ∧
      ∀ (pn2 td2 : String) (hw2 : ℚ),
        (add_timesheet_entry (add_timesheet_entry db eid pn td hw d)
            eid pn2 td2 hw2 d).attendance_log =
          (add_timesheet_entry db eid pn td hw d).attendance_log ∧
        keyRows (add_timesheet_entry (add_timesheet_entry db eid pn td hw d)
            eid pn2 td2 hw2 d).attendance_log eid d =
          [⟨eid, DBDate.iso d, "Present", "Work Submitted"⟩]) ∧
    (∀ r ∈ db.attendance_log, r.employee_id = eid →
      r.attendance_date = DBDate.iso d →
      (add_timesheet_entry db eid pn td hw d).attendance_log =
        db.attendance_log) := by
  constructor
  · intro h
    have hlog := add_timesheet_entry_log_of_absent db eid pn td hw d h
    have hkey : keyRows (add_timesheet_entry db eid pn td hw d).attendance_log
        eid d = [⟨eid, DBDate.iso d, "Present", "Work Submitted"⟩] := by
      rw [hlog]; exact log_attendance_keyRows _ _ _ _ _
    refine ⟨hkey, ?_⟩
    intro pn2 td2 hw2
    have hmem : (⟨eid, DBDate.iso d, "Present", "Work Submitted"⟩ :
        AttendanceRecord) ∈
        (add_timesheet_entry db eid pn td hw d).attendance_log := by
      rw [hlog]
      exact List.mem_append_right _ (List.mem_singleton.mpr rfl)
    have hsecond := add_timesheet_entry_log_of_present
      (add_timesheet_entry db eid pn td hw d) eid pn2 td2 hw2 d _ hmem rfl rfl
    exact ⟨hsecond, by rw [hsecond]; exact hkey⟩
  · intro r hr h1 h2
    exact add_timesheet_entry_log_of_present db eid pn td hw d r hr h1 h2

/-- C1 witness: on the empty database, one submission for ("E1", 2024-04-01)
leaves exactly the {Present, "Work Submitted"} record for that key, and a
second submission for the same key changes nothing in the ledger. -/
theorem C1_submission_first_write_wins_witness :
    keyRows (add_timesheet_entry initialDatabase "E1" "ProjA" "write docs" 2
        ⟨2024, 4, 1⟩).attendance_log "E1" ⟨2024, 4, 1⟩ =
      [⟨"E1", DBDate.iso ⟨2024, 4, 1⟩, "Present", "Work Submitted"⟩] ∧
    (add_timesheet_entry (add_timesheet_entry initialDatabase "E1" "ProjA"
        "write docs" 2 ⟨2024, 4, 1⟩) "E1" "ProjB" "review docs" 3
        ⟨2024, 4, 1⟩).attendance_log =
      (add_timesheet_entry initialDatabase "E1" "ProjA" "write docs" 2
        ⟨2024, 4, 1⟩).attendance_log := by
  have h := (C1_submission_first_write_wins initialDatabase "E1" "ProjA"
    "write docs" 2 ⟨2024, 4, 1⟩).1 (by simp [initialDatabase])
  exact ⟨h.1, (h.2 "ProjB" "review docs" 3).1⟩

/-- C2: declaring Leave or Half-day with a non-empty reason unconditionally
upserts {status, reason} for (E, D): afterwards the rows for that key are
exactly the declared record (any prior record for the key is gone), rows for
other keys survive, the timesheet and directory are untouched, and a
subsequent task submission for (E, D) leaves the ledger unchanged. -/
theorem C2_declaration_overwrites (db : DB) (eid : String) (d : Date)
    (st reason : String) (hst : st = "Leave" ∨ st = "Half-day")
    (hreason : reason ≠ "") :
    ∃ db1 : DB,
      employee_view_mark_leave db eid d st reason = Except.ok db1 ∧
      db1.employees = db.employees ∧
      db1.timesheet = db.timesheet ∧
      db1.attendance_log =
        log_attendance db.attendance_log eid (DBDate.iso d) st reason ∧
      keyRows db1.attendance_log eid d = [⟨eid, DBDate.iso d, st, reason⟩] ∧
      (∀ r ∈ db.attendance_log,
        ¬(r.employee_id = eid ∧ r.attendance_date = DBDate.iso d) →
        r ∈ db1.attendance_log) ∧
      (∀ (pn td : String) (hw : ℚ),
        (add_timesheet_entry db1 eid pn td hw d).attendance_log =
          db1.attendance_log) := by
  refine ⟨{ db with attendance_log := log_attendance db.attendance_log eid (DBDate.iso d) st reason }, ?_, rfl, rfl, rfl, ?_, ?_, ?_⟩
  · simp only [employee_view_mark_leave, if_pos hreason]
  · exact log_attendance_keyRows _ _ _ _ _
  · intro r hr hk
    exact log_attendance_mem_of_other _ _ _ _ _ r hr hk
  · intro pn td hw
    refine add_timesheet_entry_log_of_present _ eid pn td hw d
      ⟨eid, DBDate.iso d, st, reason⟩ ?_ rfl rfl
    exact List.mem_append_right _ (List.mem_singleton.mpr rfl)

/-- C2 witness: on a ledger holding a prior Present record for
("E1", 2024-04-05), declaring Leave with reason "Sick" succeeds and all the
stated consequences hold at that input. -/
theorem C2_declaration_overwrites_witness :
    ∃ db1 : DB,
      employee_view_mark_leave
        { employees := [⟨"E1", "Alice"⟩], timesheet := [],
          attendance_log := [⟨"E1", DBDate.iso ⟨2024, 4, 5⟩, "Present",
            "Work Submitted"⟩] } "E1" ⟨2024, 4, 5⟩ "Leave" "Sick" =
        Except.ok db1 ∧
      db1.employees = [⟨"E1", "Alice"⟩] ∧
      db1.timesheet = [] ∧
      db1.attendance_log =
        log_attendance [⟨"E1", DBDate.iso ⟨2024, 4, 5⟩, "Present",
          "Work Submitted"⟩] "E1" (DBDate.iso ⟨2024, 4, 5⟩) "Leave" "Sick" ∧
      keyRows db1.attendance_log "E1" ⟨2024, 4, 5⟩ =
        [⟨"E1", DBDate.iso ⟨2024, 4, 5⟩, "Leave", "Sick"⟩] ∧
      (∀ r ∈ [(⟨"E1", DBDate.iso ⟨2024, 4, 5⟩, "Present", "Work Submitted"⟩ :
          AttendanceRecord)],
        ¬(r.employee_id = "E1" ∧ r.attendance_date =
          DBDate.iso ⟨2024, 4, 5⟩) → r ∈ db1.attendance_log) ∧
      (∀ (pn td : String) (hw : ℚ),
        (add_timesheet_entry db1 "E1" pn td hw ⟨2024, 4, 5⟩).attendance_log =
          db1.attendance_log) :=
  C2_declaration_overwrites
    { employees := [⟨"E1", "Alice"⟩], timesheet := [],
      attendance_log := [⟨"E1", DBDate.iso ⟨2024, 4, 5⟩, "Present",
        "Work Submitted"⟩] } "E1" ⟨2024, 4, 5⟩ "Leave" "Sick"
    (Or.inl rfl) (by decide)

theorem add_timesheet_entry_KeyUnique (db : DB)
    (eid pn td : String) (hw : ℚ) (d : Date)
    (h : KeyUnique db.attendance_log) :
    KeyUnique (add_timesheet_entry db eid pn td hw d).attendance_log := by
  unfold add_timesheet_entry
  cases hfind : db.attendance_log.find? (fun r =>
      r.employee_id == eid && r.attendance_date == DBDate.iso d) with
  | none =>
    simp only [hfind]
    exact log_attendance_KeyUnique _ _ _ _ _ h
  | some a =>
    simp only [hfind]
    exact h

theorem applyOp_KeyUnique (db : DB) (op : Op)
    (h : KeyUnique db.attendance_log) :
    KeyUnique (applyOp db op).attendance_log := by
  cases op with
  | submit eid pn td hw d =>
    unfold applyOp employee_view_submit_task
    by_cases hc : pn ≠ "" ∧ td ≠ "" ∧ hw > 0
    · simp only [if_pos hc]
      exact add_timesheet_entry_KeyUnique db eid pn td hw d h
    · simp only [if_neg hc]
      exact h
  | declare eid d st rsn =>
    unfold applyOp employee_view_mark_leave
    by_cases hc : rsn ≠ ""
    · simp only [if_pos hc]
      exact log_attendance_KeyUnique _ _ _ _ _ h
    · simp only [if_neg hc]
      exact h

/-- C5: the attendance ledger never holds two rows with the same
(employee_id, attendance_date) key: the invariant holds of the freshly
initialized database, is preserved by the declaration upsert
(`log_attendance`), by the submission branch (`add_timesheet_entry`), and
hence by every sequence of validated core operations. -/
theorem C5_key_unique_invariant :
    KeyUnique initialDatabase.attendance_log ∧
    (∀ (l : List AttendanceRecord) (eid : String) (dd : DBDate)
      (st rsn : String),
      KeyUnique l → KeyUnique (log_attendance l eid dd st rsn)) ∧
    (∀ (db : DB) (eid pn td : String) (hw : ℚ) (d : Date),
      KeyUnique db.attendance_log →
      KeyUnique (add_timesheet_entry db eid pn td hw d).attendance_log) ∧
    (∀ (db : DB) (ops : List Op),
      KeyUnique db.attendance_log →
      KeyUnique (runOps db ops).attendance_log) := by
  refine ⟨List.Pairwise.nil, log_attendance_KeyUnique,
    add_timesheet_entry_KeyUnique, ?_⟩
  intro db ops
  induction ops generalizing db with
  | nil => exact fun h => h
  | cons op rest ih =>
    intro h
    exact ih (applyOp db op) (applyOp_KeyUnique db op h)

/-- C5 witness: running a declaration followed by a submission for the same
key on the freshly initialized database yields a ledger with at most one row
per key. -/
theorem C5_key_unique_invariant_witness :
    KeyUnique ((runOps initialDatabase
      [Op.declare "E1" ⟨2024, 4, 5⟩ "Leave" "Sick",
       Op.submit "E1" "ProjA" "write docs" 2 ⟨2024, 4, 5⟩]).attendance_log) :=
  C5_key_unique_invariant.2.2.2 initialDatabase
    [Op.declare "E1" ⟨2024, 4, 5⟩ "Leave" "Sick",
     Op.submit "E1" "ProjA" "write docs" 2 ⟨2024, 4, 5⟩] List.Pairwise.nil

theorem DBDate.toDatetime_eq_some (x : DBDate) (d : Date) :
    x.toDatetime = some d ↔ x = DBDate.iso d := by
  cases x <;> simp [DBDate.toDatetime]

theorem applyRow_skip (emps : List String) (cell : String → Date → String)
    (r : AttendanceRecord) (h : r.attendance_date.toDatetime = none) :
    applyRow emps cell r = cell := by
  unfold applyRow
  rw [h]

theorem applyRow_unknown (emps : List String) (cell : String → Date → String)
    (r : AttendanceRecord) (h : emps.contains r.employee_id = false) :
    applyRow emps cell r = cell := by
  unfold applyRow
  cases hd : r.attendance_date.toDatetime with
  | none => rfl
  | some dt =>
    have hm : r.employee_id ∉ emps := by simpa using h
    simp [hm]

theorem applyRow_preserve (emps : List String)
    (cell : String → Date → String) (r : AttendanceRecord)
    (e : String) (d : Date)
    (h : ¬(r.employee_id = e ∧ r.attendance_date.toDatetime = some d)) :
    applyRow emps cell r e d = cell e d := by
  unfold applyRow
  cases hd : r.attendance_date.toDatetime with
  | none => rfl
  | some dt =>
    by_cases hc : emps.contains r.employee_id
    · simp only [hc, if_true]
      rw [if_neg]
      rintro ⟨he, hdd⟩
      exact h ⟨he.symm, by rw [hd, hdd]⟩
    · simp only [Bool.not_eq_true] at hc
      have hm : r.employee_id ∉ emps := by simpa using hc
      simp [hm]

theorem foldl_applyRow_preserve (emps : List String)
    (df : List AttendanceRecord) (init : String → Date → String)
    (e : String) (d : Date)
    (h : ∀ r ∈ df,
      ¬(r.employee_id = e ∧ r.attendance_date.toDatetime = some d)) :
    df.foldl (applyRow emps) init e d = init e d := by
  induction df generalizing init with
  | nil => rfl
  | cons a t ih =>
    rw [List.foldl_cons,
      ih (applyRow emps init a) (fun r hr => h r (List.mem_cons_of_mem a hr))]
    exact applyRow_preserve emps init a e d (h a (List.mem_cons_self a t))

theorem foldl_applyRow_write (emps : List String)
    (df : List AttendanceRecord)
    (r : AttendanceRecord) (e : String) (d : Date)
    (h1 : r.employee_id = e)
    (h2 : r.attendance_date = DBDate.iso d)
    (hc : emps.contains e = true) :
    ∀ (init : String → Date → String), KeyUnique df → r ∈ df →
      df.foldl (applyRow emps) init e d = r.status := by
  induction df with
  | nil => intro init _ hr; cases hr
  | cons a t ih =>
    intro init hu hr
    unfold KeyUnique at hu
    rw [List.foldl_cons]
    rcases List.mem_cons.mp hr with har | hrt
    · subst har
      have htail : ∀ b ∈ t,
          ¬(b.employee_id = e ∧ b.attendance_date.toDatetime = some d) := by
        intro b hb hmatch
        have hb2 : b.attendance_date = DBDate.iso d :=
          (DBDate.toDatetime_eq_some _ _).mp hmatch.2
        exact (List.pairwise_cons.mp hu).1 b hb
          ⟨h1.trans hmatch.1.symm, h2.trans hb2.symm⟩
      rw [foldl_applyRow_preserve emps t _ e d htail]
      unfold applyRow
      rw [h2]
      simp only [DBDate.toDatetime]
      rw [h1, hc]
      simp [h1]
    · exact ih (applyRow emps init a) (List.pairwise_cons.mp hu).2 hrt

/-- C3: every row of the monthly summary has
`Absent = max(0, working_days - (Present + Half-day + Leave))`, where
`working_days` counts the calendar days of the month whose weekday is
Monday–Friday; in particular `Absent` is never negative. -/
theorem C3_absent_floor (db : DB) (year month : Nat)
    (hm1 : 1 ≤ month) (hm2 : month ≤ 12) (s : EmployeeSummary)
    (hs : s ∈ (generate_monthly_report db year month).1) :
    s.absent = max 0 ((workingDays year month : Int) -
      ((s.present : Int) + (s.halfday : Int) + (s.leave : Int))) ∧
    0 ≤ s.absent ∧
    workingDays year month =
      (((List.range (daysInMonth year month)).map
        (fun i => Date.mk year month (i + 1))).filter
        (fun dd => dd.weekday < 5)).length := by
  by_cases hemp : db.employees = []
  · unfold generate_monthly_report at hs
    rw [if_pos hemp] at hs
    cases hs
  · unfold generate_monthly_report at hs
    rw [if_neg hemp] at hs
    simp only [List.mem_map] at hs
    obtain ⟨e, he, rfl⟩ := hs
    refine ⟨?_, ?_, ?_⟩
    · simp only [summaryRow]
      push_cast
      rw [max_comm]
    · simp only [summaryRow]
      exact le_max_right _ 0
    · unfold workingDays
      induction (daysInMonth year month) with
      | zero => rfl
      | succ n ih =>
        rw [List.range_succ, List.filter_append, List.map_append,
          List.filter_append, List.length_append, List.length_append, ih]
        by_cases h : (Date.mk year month (n + 1)).weekday < 5 <;> simp [h]

/-- C3 witness: the spec's worked example — April 2024 (22 working days),
employee E1 Present on April 1–3 and Leave on April 4 — yields
Absent = 18 = max(0, 22 - (3 + 0 + 1)), a non-negative value. -/
theorem C3_absent_floor_witness :
    (18 : Int) = max 0 ((workingDays 2024 4 : Int) -
      (((3 : Nat) : Int) + ((0 : Nat) : Int) + ((1 : Nat) : Int))) ∧
    (0 : Int) ≤ 18 ∧
    workingDays 2024 4 =
      (((List.range (daysInMonth 2024 4)).map
        (fun i => Date.mk 2024 4 (i + 1))).filter
        (fun dd => dd.weekday < 5)).length := by
  have h := C3_absent_floor
    { employees := [⟨"E1", "Alice"⟩], timesheet := [],
      attendance_log :=
        [⟨"E1", DBDate.iso ⟨2024, 4, 1⟩, "Present", "Work Submitted"⟩,
         ⟨"E1", DBDate.iso ⟨2024, 4, 2⟩, "Present", "Work Submitted"⟩,
         ⟨"E1", DBDate.iso ⟨2024, 4, 3⟩, "Present", "Work Submitted"⟩,
         ⟨"E1", DBDate.iso ⟨2024, 4, 4⟩, "Leave", "Vacation"⟩] }
    2024 4 (by decide) (by decide) ⟨"E1", "Alice", 3, 0, 1, 18⟩ (by decide)
  exact h

/-- C6: for a month with no ledger rows at all, every directory employee
still appears in both outputs: each summary row shows
Present = Half-day = Leave = 0 and Absent = working_days, and each matrix
row is a full month of default Weekend/Absent cells. -/
theorem C6_empty_month (db : DB) (year month : Nat)
    (hne : db.employees ≠ [])
    (hdf : db.attendance_log.filter (monthFilter year month) = []) :
    (generate_monthly_report db year month).1 =
      db.employees.map (fun e =>
        (⟨e.employee_id, e.name, 0, 0, 0, (workingDays year month : Int)⟩ :
          EmployeeSummary)) ∧
    (generate_monthly_report db year month).2 =
      db.employees.map (fun e =>
        (e, (List.range (daysInMonth year month)).map (fun i =>
          defaultCell ⟨year, month, i + 1⟩))) := by
  unfold generate_monthly_report
  rw [if_neg hne, hdf]
  constructor
  · simp only
    apply List.map_congr_left
    intro e _
    simp only [summaryRow, statusCount, List.filter_nil, List.length_nil]
    have habs : max ((workingDays year month : Int) -
        (((0 + 0 + 0 : Nat)) : Int)) 0 = (workingDays year month : Int) := by
      push_cast
      rw [sub_zero]
      exact max_eq_left (Int.natCast_nonneg _)
    rw [habs]
  · simp only
    apply List.map_congr_left
    intro e _
    rfl

/-- C6 witness: a directory with one employee and a ledger whose only row
lies in March gives, for April 2024, a summary row (0, 0, 0, Absent = 22)
and a matrix row of thirty default cells. -/
theorem C6_empty_month_witness :
    (generate_monthly_report
      { employees := [⟨"E1", "Alice"⟩], timesheet := [],
        attendance_log :=
          [⟨"E1", DBDate.iso ⟨2024, 3, 29⟩, "Present", "Work Submitted"⟩] }
      2024 4).1 =
      ([⟨"E1", "Alice"⟩] : List Employee).map (fun e =>
        (⟨e.employee_id, e.name, 0, 0, 0, (workingDays 2024 4 : Int)⟩ :
          EmployeeSummary)) ∧
    (generate_monthly_report
      { employees := [⟨"E1", "Alice"⟩], timesheet := [],
        attendance_log :=
          [⟨"E1", DBDate.iso ⟨2024, 3, 29⟩, "Present", "Work Submitted"⟩] }
      2024 4).2 =
      ([⟨"E1", "Alice"⟩] : List Employee).map (fun e =>
        (e, (List.range (daysInMonth 2024 4)).map (fun i =>
          defaultCell ⟨2024, 4, i + 1⟩))) :=
  C6_empty_month
    { employees := [⟨"E1", "Alice"⟩], timesheet := [],
      attendance_log :=
        [⟨"E1", DBDate.iso ⟨2024, 3, 29⟩, "Present", "Work Submitted"⟩] }
    2024 4 (by decide) (by decide)

theorem statusCount_middle (A B : List AttendanceRecord)
    (r : AttendanceRecord) (eid st : String) (h : r.employee_id ≠ eid) :
    statusCount (A ++ r :: B) eid st = statusCount (A ++ B) eid st := by
  unfold statusCount
  rw [List.filter_append, List.filter_append, List.filter_cons]
  have hp : (r.employee_id == eid && r.status == st) = false := by
    simp [h]
  rw [hp]
  simp

theorem buildMatrixFun_middle_unknown (emps : List String)
    (A B : List AttendanceRecord) (r : AttendanceRecord)
    (h : emps.contains r.employee_id = false) :
    buildMatrixFun emps (A ++ r :: B) = buildMatrixFun emps (A ++ B) := by
  unfold buildMatrixFun
  rw [List.foldl_append, List.foldl_append, List.foldl_cons,
    applyRow_unknown emps _ r h]

/-- C10: a ledger row whose employee identifier is not in the Employee
Directory is invisible to the monthly report: removing it changes neither
output, and the row sets of the summary and the detailed matrix are exactly
the directory. -/
theorem C10_unknown_employee_ignored (db : DB) (year month : Nat)
    (pre post : List AttendanceRecord) (r : AttendanceRecord)
    (hlog : db.attendance_log = pre ++ r :: post)
    (hr : r.employee_id ∉ db.employees.map (fun e => e.employee_id)) :
    generate_monthly_report db year month =
      generate_monthly_report
        { db with attendance_log := pre ++ post } year month ∧
    (generate_monthly_report db year month).1.map (fun s => s.employee_id) =
      db.employees.map (fun e => e.employee_id) ∧
    (generate_monthly_report db year month).2.map Prod.fst = db.employees := by
  have hmain : generate_monthly_report db year month =
      generate_monthly_report
        { db with attendance_log := pre ++ post } year month := by
    unfold generate_monthly_report
    by_cases hemp : db.employees = []
    · rw [if_pos hemp, if_pos hemp]
    · rw [if_neg hemp, if_neg hemp]
      simp only [hlog]
      rw [List.filter_append, List.filter_append, List.filter_cons]
      by_cases hF : monthFilter year month r
      · rw [if_pos hF]
        have hne : ∀ e ∈ db.employees, r.employee_id ≠ e.employee_id := by
          intro e he heq
          exact hr (List.mem_map.mpr ⟨e, he, heq.symm⟩)
        have hcontains : (db.employees.map (fun e => e.employee_id)).contains
            r.employee_id = false := by
          simpa using hr
        rw [show (List.filter (monthFilter year month) pre ++
            r :: List.filter (monthFilter year month) post) =
            (List.filter (monthFilter year month) pre ++
            [r] ++ List.filter (monthFilter year month) post) by simp]
        rw [show (List.filter (monthFilter year month) pre ++ [r] ++
            List.filter (monthFilter year month) post) =
            (List.filter (monthFilter year month) pre ++
            (r :: List.filter (monthFilter year month) post)) by simp]
        rw [buildMatrixFun_middle_unknown _ _ _ _ hcontains]
        have hsum : ∀ e ∈ db.employees,
            summaryRow (List.filter (monthFilter year month) pre ++
              r :: List.filter (monthFilter year month) post) year month e =
            summaryRow (List.filter (monthFilter year month) pre ++
              List.filter (monthFilter year month) post) year month e := by
          intro e he
          unfold summaryRow
          rw [statusCount_middle _ _ _ _ _ (hne e he),
            statusCount_middle _ _ _ _ _ (hne e he),
            statusCount_middle _ _ _ _ _ (hne e he)]
        rw [List.map_congr_left hsum]
      · rw [if_neg hF]
  refine ⟨hmain, ?_, ?_⟩
  · unfold generate_monthly_report
    by_cases hemp : db.employees = []
    · rw [if_pos hemp, hemp]
      rfl
    · rw [if_neg hemp]
      simp only [List.map_map]
      rfl
  · unfold generate_monthly_report
    by_cases hemp : db.employees = []
    · rw [if_pos hemp, hemp]
      rfl
    · rw [if_neg hemp]
      simp only [List.map_map]
      exact List.map_id db.employees

/-- C10 witness: a ledger whose only row belongs to the unknown employee
"GHOST" yields, for April 2024, the same report as the empty ledger, and
both outputs range exactly over the one-employee directory. -/
theorem C10_unknown_employee_ignored_witness :
    generate_monthly_report
      { employees := [⟨"E1", "Alice"⟩], timesheet := [],
        attendance_log := [⟨"GHOST", DBDate.iso ⟨2024, 4, 2⟩, "Present",
          "Work Submitted"⟩] } 2024 4 =
      generate_monthly_report
        { employees := [⟨"E1", "Alice"⟩], timesheet := [],
          attendance_log := ([] : List AttendanceRecord) ++ [] } 2024 4 ∧
    (generate_monthly_report
      { employees := [⟨"E1", "Alice"⟩], timesheet := [],
        attendance_log := [⟨"GHOST", DBDate.iso ⟨2024, 4, 2⟩, "Present",
          "Work Submitted"⟩] } 2024 4).1.map (fun s => s.employee_id) =
      ([⟨"E1", "Alice"⟩] : List Employee).map (fun e => e.employee_id) ∧
    (generate_monthly_report
      { employees := [⟨"E1", "Alice"⟩], timesheet := [],
        attendance_log := [⟨"GHOST", DBDate.iso ⟨2024, 4, 2⟩, "Present",
          "Work Submitted"⟩] } 2024 4).2.map Prod.fst =
      [⟨"E1", "Alice"⟩] :=
  C10_unknown_employee_ignored
    { employees := [⟨"E1", "Alice"⟩], timesheet := [],
      attendance_log := [⟨"GHOST", DBDate.iso ⟨2024, 4, 2⟩, "Present",
        "Work Submitted"⟩] } 2024 4 []
    [] ⟨"GHOST", DBDate.iso ⟨2024, 4, 2⟩, "Present", "Work Submitted"⟩
    rfl (by decide)

theorem buildMatrixFun_middle_skip (emps : List String)
    (A B : List AttendanceRecord) (r : AttendanceRecord)
    (h : r.attendance_date.toDatetime = none) :
    buildMatrixFun emps (A ++ r :: B) = buildMatrixFun emps (A ++ B) := by
  unfold buildMatrixFun
  rw [List.foldl_append, List.foldl_append, List.foldl_cons,
    applyRow_skip emps _ r h]

/-- C4: with a non-empty directory, the detailed matrix has exactly one row
per directory employee and one cell per calendar day of the month; a cell
defaults to "Weekend" on Saturday/Sunday and "Absent" otherwise, and shows
the stored status exactly where a ledger row exists for that employee and
date; a ledger row whose date `pd.to_datetime` cannot parse is skipped
without changing the matrix. -/
theorem C4_matrix_completeness (db : DB) (year month : Nat)
    (hne : db.employees ≠ [])
    (hu : KeyUnique db.attendance_log) :
    (generate_monthly_report db year month).2.map Prod.fst = db.employees ∧
    (∀ p ∈ (generate_monthly_report db year month).2,
      p.2.length = daysInMonth year month) ∧
    (∀ e ∈ db.employees, ∀ cells : List String,
      (e, cells) ∈ (generate_monthly_report db year month).2 →
      ∀ day : Nat, 1 ≤ day → day ≤ daysInMonth year month →
      ((∀ r ∈ db.attendance_log,
          ¬(r.employee_id = e.employee_id ∧
            r.attendance_date = DBDate.iso ⟨year, month, day⟩)) →
        cells[day - 1]? =
          some (if (Date.mk year month day).weekday ≥ 5 then "Weekend"
            else "Absent")) ∧
      (∀ r ∈ db.attendance_log, r.employee_id = e.employee_id →
        r.attendance_date = DBDate.iso ⟨year, month, day⟩ →
        cells[day - 1]? = some r.status)) ∧
    (∀ (pre post : List AttendanceRecord) (r : AttendanceRecord),
      r.attendance_date.toDatetime = none →
      db.attendance_log = pre ++ r :: post →
      (generate_monthly_report db year month).2 =
        (generate_monthly_report
          { db with attendance_log := pre ++ post } year month).2) := by
  have hrep : (generate_monthly_report db year month).2 =
      db.employees.map (fun e =>
        (e, (List.range (daysInMonth year month)).map (fun i =>
          buildMatrixFun (db.employees.map (fun e2 => e2.employee_id))
            (db.attendance_log.filter (monthFilter year month))
            e.employee_id ⟨year, month, i + 1⟩))) := by
    unfold generate_monthly_report
    rw [if_neg hne]
  refine ⟨?_, ?_, ?_, ?_⟩
  · rw [hrep]
    simp only [List.map_map]
    exact List.map_id db.employees
  · intro p hp
    rw [hrep] at hp
    obtain ⟨e, _, heq⟩ := List.mem_map.mp hp
    rw [← heq]
    simp
  · intro e he cells hcells day hday1 hday2
    rw [hrep] at hcells
    obtain ⟨e2, _, heq⟩ := List.mem_map.mp hcells
    rw [Prod.mk.injEq] at heq
    obtain ⟨rfl, hcellseq⟩ := heq
    have hidx : day - 1 < daysInMonth year month := by omega
    have hday : day - 1 + 1 = day := Nat.succ_pred_eq_of_pos hday1
    have hcell : cells[day - 1]? =
        some (buildMatrixFun (db.employees.map (fun e2 => e2.employee_id))
          (db.attendance_log.filter (monthFilter year month))
          e2.employee_id ⟨year, month, day⟩) := by
      rw [← hcellseq]
      rw [List.getElem?_map, List.getElem?_range hidx]
      simp only [Option.map_some']
      rw [hday]
    constructor
    · intro hnone
      rw [hcell]
      have hpres : ∀ r ∈ db.attendance_log.filter (monthFilter year month),
          ¬(r.employee_id = e2.employee_id ∧
            r.attendance_date.toDatetime = some ⟨year, month, day⟩) := by
        intro r hrf hmatch
        have hrlog : r ∈ db.attendance_log := List.mem_of_mem_filter hrf
        exact hnone r hrlog
          ⟨hmatch.1, (DBDate.toDatetime_eq_some _ _).mp hmatch.2⟩
      rw [buildMatrixFun,
        foldl_applyRow_preserve _ _ _ _ _ hpres]
      rfl
    · intro r hrlog hre hrd
      rw [hcell]
      have hrf : r ∈ db.attendance_log.filter (monthFilter year month) := by
        rw [List.mem_filter]
        refine ⟨hrlog, ?_⟩
        rw [monthFilter, hrd]
        simp [DBDate.strftimeYM]
      have hcont : (db.employees.map
          (fun e2 => e2.employee_id)).contains e2.employee_id = true := by
        simpa using List.mem_map.mpr ⟨e2, he, rfl⟩
      have huf : KeyUnique
          (db.attendance_log.filter (monthFilter year month)) :=
        List.Pairwise.sublist (List.filter_sublist _) hu
      rw [buildMatrixFun,
        foldl_applyRow_write _ _ r e2.employee_id ⟨year, month, day⟩
          hre hrd hcont _ huf hrf]
  · intro pre post r hnone hlog
    unfold generate_monthly_report
    rw [if_neg hne, if_neg hne]
    simp only [hlog]
    rw [List.filter_append, List.filter_cons]
    by_cases hF : monthFilter year month r
    · rw [if_pos hF]
      rw [buildMatrixFun_middle_skip _ _ _ _ hnone]
      rw [List.filter_append]
    · rw [if_neg hF, List.filter_append]

/-- C4 witness: for the one-employee directory and an April 2024 ledger
holding one Present row and one row with an unparseable date, the matrix has
one row for E1 with thirty cells, the stated default/overlay cell values,
and dropping the unparseable row leaves the matrix unchanged. -/
theorem C4_matrix_completeness_witness :
    (generate_monthly_report sampleAprilDB 2024 4).2.map Prod.fst =
      sampleAprilDB.employees ∧
    (∀ p ∈ (generate_monthly_report sampleAprilDB 2024 4).2,
      p.2.length = daysInMonth 2024 4) ∧
    (∀ e ∈ sampleAprilDB.employees, ∀ cells : List String,
      (e, cells) ∈ (generate_monthly_report sampleAprilDB 2024 4).2 →
      ∀ day : Nat, 1 ≤ day → day ≤ daysInMonth 2024 4 →
      ((∀ r ∈ sampleAprilDB.attendance_log,
          ¬(r.employee_id = e.employee_id ∧
            r.attendance_date = DBDate.iso ⟨2024, 4, day⟩)) →
        cells[day - 1]? =
          some (if (Date.mk 2024 4 day).weekday ≥ 5 then "Weekend"
            else "Absent")) ∧
      (∀ r ∈ sampleAprilDB.attendance_log, r.employee_id = e.employee_id →
        r.attendance_date = DBDate.iso ⟨2024, 4, day⟩ →
        cells[day - 1]? = some r.status)) ∧
    (∀ (pre post : List AttendanceRecord) (r : AttendanceRecord),
      r.attendance_date.toDatetime = none →
      sampleAprilDB.attendance_log = pre ++ r :: post →
      (generate_monthly_report sampleAprilDB 2024 4).2 =
        (generate_monthly_report
          { sampleAprilDB with attendance_log := pre ++ post } 2024 4).2) :=
  C4_matrix_completeness sampleAprilDB 2024 4 (by decide)
    (by unfold KeyUnique; decide)
